import Mathlib

/-!
Verification development for the Udyam-registration form backend and its
step/progress frontend model.

The definitions below are a shallow embedding of the TypeScript sources:
  * backend/src/schemaLoader.ts  (schema store, field lookup, rule extraction)
  * backend/src/validators.ts    (field/submission validation, sanitization)
  * form-step-builder/src/App.tsx (cleanFieldName) and the FormRenderer
    component (validateCurrentStep / handleNext / handlePrevious).

JavaScript runtime values are modelled by `JSValue`; JS objects are ordered
association lists (`JSFields`).  Machine regular expressions that the source
writes as fixed literals are translated to the equivalent decidable string
predicates; the one place the code builds a regex from an arbitrary schema
string (`new RegExp(rules.pattern)`) is abstracted by an oracle parameter
`rx : String → String → Option Bool`, where `none` models the constructor
throwing on an invalid pattern (the source catches exactly that).
-/

/-! ### Generic JS string helpers -/

/-- Whitespace characters trimmed by JS `String.prototype.trim` (ASCII part). -/
def jsIsWS (c : Char) : Bool :=
  c == ' ' || c == '\t' || c == '\n' || c == '\r' || c == '\x0b' || c == '\x0c'

/-- JS `s.trim()` over the character list of `s`. -/
def jsTrim (s : String) : String :=
  String.mk (((s.data.dropWhile jsIsWS).reverse.dropWhile jsIsWS).reverse)

/-- Does the first list start with the second?  (Kernel-reducible.) -/
def listStartsWith : List Char → List Char → Bool
  | [], _ => true
  | _ :: _, [] => false
  | p :: ps, c :: cs => p == c && listStartsWith ps cs

/-- Does `l` contain `sub` as a contiguous run?  Models JS `String.includes`. -/
def listContainsSeq (sub : List Char) : List Char → Bool
  | [] => sub.isEmpty
  | c :: rest => listStartsWith sub (c :: rest) || listContainsSeq sub rest

/-- JS `s.includes(sub)`. -/
def jsIncludes (s sub : String) : Bool := listContainsSeq sub.data s.data

/-- JS `s.startsWith(p)`. -/
def jsStartsWith (s p : String) : Bool := listStartsWith p.data s.data

/-- JS `s.toLowerCase()` (ASCII, which is all the source compares). -/
def jsToLower (s : String) : String := String.mk (s.data.map Char.toLower)

/-- Replace the first occurrence of `pat` in the list by `repl`
(the semantics of JS `String.prototype.replace` with a string pattern). -/
def jsReplaceFirstAux (pat repl : List Char) : List Char → List Char
  | [] => []
  | c :: rest =>
    if listStartsWith pat (c :: rest) then repl ++ (c :: rest).drop pat.length
    else c :: jsReplaceFirstAux pat repl rest

/-- JS `s.replace(pat, repl)` with a string (non-regex) pattern:
only the first occurrence is replaced. -/
def jsReplaceFirst (pat repl s : String) : String :=
  String.mk (jsReplaceFirstAux pat.data repl.data s.data)

/-- JS `parseInt(s, 10)`: skip leading whitespace, optional sign, then the
longest run of decimal digits; `none` models the `NaN` result. -/
def jsParseInt (s : String) : Option Int :=
  let cs := s.data.dropWhile jsIsWS
  let signAndRest : Int × List Char :=
    match cs with
    | '-' :: rest => (-1, rest)
    | '+' :: rest => (1, rest)
    | _ => (1, cs)
  let digits := signAndRest.2.takeWhile Char.isDigit
  if digits.isEmpty then none
  else some (signAndRest.1 * (Int.ofNat (digits.foldl (fun acc c => acc * 10 + (c.toNat - 48)) 0)))

/-! ### JS values -/

mutual
/-- A JavaScript runtime value as far as the validators observe it. -/
inductive JSValue where
  | undef
  | null
  | bool (b : Bool)
  | num (n : Int)
  | str (s : String)
  | obj (fields : JSFields)
deriving DecidableEq

/-- The ordered own-properties of a JS object (what `Object.entries` yields). -/
inductive JSFields where
  | nil
  | cons (key : String) (value : JSValue) (rest : JSFields)
deriving DecidableEq
end

/-- JS `String(value)` for the values we model. -/
def jsToString : JSValue → String
  | .undef => "undefined"
  | .null => "null"
  | .bool true => "true"
  | .bool false => "false"
  | .num n => toString n
  | .str s => s
  | .obj _ => "[object Object]"

/-- JS truthiness. -/
def jsTruthy : JSValue → Bool
  | .undef => false
  | .null => false
  | .bool b => b
  | .num n => n != 0
  | .str s => s != ""
  | .obj _ => true

/-- The test `value === undefined || value === null || value === ''` used by
the validators for "empty". -/
def isEmptyValue : JSValue → Bool
  | .undef => true
  | .null => true
  | .str s => s == ""
  | _ => false

/-- Property read `v[key]`: `undefined` on non-objects and missing keys. -/
def jsGet : JSValue → String → JSValue
  | .obj fs, key => jsGetF fs key
  | _, _ => .undef
where
  jsGetF : JSFields → String → JSValue
  | .nil, _ => .undef
  | .cons k v rest, key => if k == key then v else jsGetF rest key

/-- Is `key` an own property (the JS `key in data` test)? -/
def jsHasKey : JSFields → String → Bool
  | .nil, _ => false
  | .cons k _ rest, key => k == key || jsHasKey rest key

/-- JS `value.length` as the validators use it: a number for strings,
`undefined` (here `none`) for everything else we model. -/
def jsLength : JSValue → Option Int
  | .str s => some (Int.ofNat s.length)
  | _ => none

/-! ### The fixed regex literals of validators.ts, as string predicates -/

def isDigitCh (c : Char) : Bool := '0' ≤ c && c ≤ '9'

def isUpperAZ (c : Char) : Bool := 'A' ≤ c && c ≤ 'Z'

/-- `/^\d{12}$/` -/
def matchesAadhaar (s : String) : Bool :=
  s.data.length == 12 && s.data.all isDigitCh

/-- `/^[A-Z]{5}\d{4}[A-Z]{1}$/` -/
def matchesPanPat (s : String) : Bool :=
  s.data.length == 10 && (s.data.take 5).all isUpperAZ
    && ((s.data.drop 5).take 4).all isDigitCh && (s.data.drop 9).all isUpperAZ

/-- `/^\d{6}$/` -/
def matchesPin (s : String) : Bool :=
  s.data.length == 6 && s.data.all isDigitCh

/-- `/^[6-9]\d{9}$/` applied by the source to `stringValue.replace(/\D/g, '')`,
i.e. to the digits of the string. -/
def matchesMobile (s : String) : Bool :=
  let ds := s.data.filter isDigitCh
  ds.length == 10 && (match ds with | c :: _ => '6' ≤ c && c ≤ '9' | [] => false)

/-- A character matching `[^\s@]`. -/
def emailChunkCh (c : Char) : Bool := !jsIsWS c && c != '@'

/-- `/^[^\s@]+@[^\s@]+\.[^\s@]+$/`: a non-empty local part, one `@`, and a
domain containing a dot that is neither its first nor its last character. -/
def matchesEmail (s : String) : Bool :=
  match s.data.splitOn '@' with
  | [localPart, domain] =>
    !localPart.isEmpty && localPart.all emailChunkCh && domain.all emailChunkCh
      && ((domain.drop 1).dropLast.contains '.')
  | _ => false

/-! ### Schema data model (schemaLoader.ts) -/

/-- One `<option>` of a select field. -/
structure SchemaOption where
  value : String
  text : String
  selected : Bool
deriving DecidableEq

/-- A scraped form field (`SchemaField` in schemaLoader.ts).  Attributes the
embedded functions never read (id, class, placeholder, autocomplete, …) are
omitted; they influence no behaviour under verification. -/
structure SchemaField where
  tag : String
  type : String
  name : String
  maxlength : String
  minlength : String
  required : Bool
  pattern : String
  aria_required : String
  label : String
  options : Option (List SchemaOption)
deriving DecidableEq

/-- One step of the scraped schema. -/
structure SchemaStep where
  id : Int
  title : String
  fields : List SchemaField
  field_count : Int
deriving DecidableEq

/-- The complete scraped schema (`UdyamSchema`). -/
structure UdyamSchema where
  url : String
  scraped_at : String
  steps : List SchemaStep
deriving DecidableEq

/-- The ASP.NET namespace marker stripped from raw field names. -/
def aspMarker : String := "ctl00$ContentPlaceHolder1$"

/-- `cleanFieldName` from form-step-builder/src/services/api.ts:
`name.replace('ctl00$ContentPlaceHolder1$', '')`. -/
def cleanFieldName (name : String) : String := jsReplaceFirst aspMarker "" name

/-- `getLoadedSchema()`: throws when no schema has been loaded. -/
def getLoadedSchema (loaded : Option UdyamSchema) : Except String UdyamSchema :=
  match loaded with
  | none => .error "Schema not loaded. Call loadSchema() first."
  | some s => .ok s

/-- `getAllFields()`: all steps' fields flattened in order. -/
def getAllFields (loaded : Option UdyamSchema) : Except String (List SchemaField) := do
  let schema ← getLoadedSchema loaded
  return schema.steps.foldr (fun step acc => step.fields ++ acc) []

/-- `getFieldByName(fieldName)`: first field whose raw name, or raw name with
the ASP.NET marker removed, equals `fieldName`. -/
def getFieldByName (loaded : Option UdyamSchema) (fieldName : String) :
    Except String (Option SchemaField) := do
  let allFields ← getAllFields loaded
  return allFields.find? fun field =>
    field.name == fieldName || jsReplaceFirst aspMarker "" field.name == fieldName

/-- The normalized validation rule derived for one field. -/
structure FieldRules where
  required : Bool
  pattern : Option String
  type : String
  maxlength : Option Int
  minlength : Option Int
  options : Option (List SchemaOption)
deriving DecidableEq

/-- The rule-derivation body of `getFieldValidationRules`, given the field.
The source builds the object by conditionally adding each optional property;
each property is written here as its own conditional expression. -/
def fieldRulesOf (field : SchemaField) : FieldRules :=
  { required := field.required || field.aria_required == "true"
    type := if field.type != "" then field.type else field.tag
    pattern :=
      if field.pattern != "" && jsTrim field.pattern != "" then some field.pattern
      else none
    maxlength :=
      if field.maxlength != "" && jsTrim field.maxlength != "" then
        match jsParseInt field.maxlength with
        | some n => some n
        | none => none
      else none
    minlength :=
      if field.minlength != "" && jsTrim field.minlength != "" then
        match jsParseInt field.minlength with
        | some n => some n
        | none => none
      else none
    options :=
      match field.options with
      | some opts => if opts.length > 0 then some opts else none
      | none => none }

/-- `getFieldValidationRules(fieldName)`: throws when the field is absent. -/
def getFieldValidationRules (loaded : Option UdyamSchema) (fieldName : String) :
    Except String FieldRules := do
  let fieldOpt ← getFieldByName loaded fieldName
  match fieldOpt with
  | none => .error s!"Field not found: {fieldName}"
  | some field => return fieldRulesOf field

/-! ### Field-name mapping (validators.ts) -/

/-- `FIELD_MAPPING`: API field names to scraped schema field names. -/
def FIELD_MAPPING : List (String × String) :=
  [ ("enterpriseName", "txtownername")
  , ("enterpriseType", "ddlTypeofOrg")
  , ("aadhaarNumber", "txtadharno")
  , ("panNumber", "txtPan")
  , ("panName", "txtPanName")
  , ("dateOfBirth", "txtdob")
  , ("socialCategory", "ddlSocialCategory")
  , ("gender", "ddlGender")
  , ("physicallyHandicapped", "chkPhysicallyHandicapped")
  , ("declaration", "chkDecarationP") ]

/-- `getSchemaFieldName`: `FIELD_MAPPING[apiFieldName] || apiFieldName`
(every mapped name is a non-empty, hence truthy, string). -/
def getSchemaFieldName (apiFieldName : String) : String :=
  match FIELD_MAPPING.lookup apiFieldName with
  | some n => n
  | none => apiFieldName

/-! ### Basic (schema-less) field validation -/

/-- The `requiredFields` list local to `validateBasicField`. -/
def requiredFieldsBasic : List String :=
  ["enterpriseName", "enterpriseType", "socialCategory", "gender",
   "declaration", "aadhaarNumber", "panNumber"]

/-- The `switch (fieldName)` block of `validateBasicField`. -/
def basicSwitchError (fieldName : String) (value : JSValue) (stringValue : String) :
    Option String :=
  if fieldName == "enterpriseType" then
    if !(["Manufacturing", "Service", "Trading"].contains stringValue) then
      some "Enterprise type must be one of: Manufacturing, Service, Trading"
    else none
  else if fieldName == "socialCategory" then
    if !(["General", "SC", "ST", "OBC"].contains stringValue) then
      some "Social category must be one of: General, SC, ST, OBC"
    else none
  else if fieldName == "gender" then
    if !(["Male", "Female", "Other"].contains stringValue) then
      some "Gender must be one of: Male, Female, Other"
    else none
  else if fieldName == "declaration" then
    match value with
    | .bool true => none
    | _ => some "Declaration must be accepted (true)"
  else if fieldName == "aadhaarNumber" then
    if !matchesAadhaar stringValue then some "Aadhaar number must be exactly 12 digits"
    else none
  else if fieldName == "panNumber" then
    if !matchesPanPat stringValue then
      some "PAN must be in format: ABCDE1234F (5 letters, 4 digits, 1 letter)"
    else none
  else if fieldName == "pinCode" then
    if !matchesPin stringValue then some "Pin code must be exactly 6 digits"
    else none
  else if fieldName == "mobileNumber" then
    if !matchesMobile stringValue then some "Mobile number must be a valid 10-digit number"
    else none
  else if fieldName == "emailId" || fieldName == "email" then
    if !matchesEmail stringValue then some "Email must be a valid email address"
    else none
  else if fieldName == "physicallyHandicapped" then
    match value with
    | .bool _ => none
    | _ => some "Physically handicapped must be a boolean value"
  else none

mutual
/-- `validateBasicField(fieldName, value)`: fallback validation used when the
field has no schema counterpart.  The nested-object branch inlines the body of
`validateNestedObject` (the standalone wrapper is defined below and proven to
agree). -/
def validateBasicField (fieldName : String) (value : JSValue) : Option String :=
  if requiredFieldsBasic.contains fieldName && isEmptyValue value then
    some s!"{fieldName} is required"
  else
    match basicSwitchError fieldName value (jsToString value) with
    | some e => some e
    | none =>
      match value with
      | .obj fields =>
        let errs := nestedFieldErrors fieldName fields
        if errs.isEmpty then none else some (String.intercalate "; " errs)
      | _ => none

/-- The accumulation loop of `validateNestedObject`: one `objectName.key: msg`
entry per failing inner key. -/
def nestedFieldErrors (objectName : String) : JSFields → List String
  | .nil => []
  | .cons key v rest =>
    match validateBasicField key v with
    | some e => (objectName ++ "." ++ key ++ ": " ++ e) :: nestedFieldErrors objectName rest
    | none => nestedFieldErrors objectName rest
end

/-- `validateNestedObject(objectName, obj)`: joins the inner errors with
`'; '` into a single message, or `null` when there are none. -/
def validateNestedObject (objectName : String) (fields : JSFields) : Option String :=
  let errs := nestedFieldErrors objectName fields
  if errs.isEmpty then none else some (String.intercalate "; " errs)

/-! ### `Number(value)` coercion for the `number` rule type -/

/-- Exponent suffix of a JS decimal literal: empty or `(e|E)(+|-)?digits`. -/
def jsExpSuffix : List Char → Bool
  | [] => true
  | 'e' :: r => jsSignedDigits r
  | 'E' :: r => jsSignedDigits r
  | _ => false
where
  jsSignedDigits (cs : List Char) : Bool :=
    let body := match cs with
      | '+' :: r => r
      | '-' :: r => r
      | r => r
    !body.isEmpty && body.all isDigitCh

/-- Decimal numeric literal (after an optional sign): `d+ [. d*] exp?` or
`. d+ exp?`. -/
def jsDecimalLit (cs : List Char) : Bool :=
  let ip := cs.takeWhile isDigitCh
  if ip.isEmpty then
    match cs with
    | '.' :: r =>
      let frac := r.takeWhile isDigitCh
      !frac.isEmpty && jsExpSuffix (r.drop frac.length)
    | _ => false
  else
    match cs.drop ip.length with
    | '.' :: r =>
      let frac := r.takeWhile isDigitCh
      jsExpSuffix (r.drop frac.length)
    | r => jsExpSuffix r

/-- Is `Number(s)` a number (not NaN)?  Decimal and `Infinity` forms; the
validators never feed the exotic (hex/binary) literal forms. -/
def jsStrIsNumeric (s : String) : Bool :=
  let cs := ((s.data.dropWhile jsIsWS).reverse.dropWhile jsIsWS).reverse
  if cs.isEmpty then true
  else
    let body := match cs with
      | '-' :: r => r
      | '+' :: r => r
      | r => r
    jsDecimalLit body || body == "Infinity".data

/-- `isNaN(Number(value))` over our value model. -/
def jsNumberIsNaN : JSValue → Bool
  | .undef => true
  | .null => false
  | .bool _ => false
  | .num _ => false
  | .str s => !jsStrIsNumeric s
  | .obj _ => true

/-! ### Schema-driven single-field validation (validateField) -/

/-- The `switch (rules.type)` block of `validateField`. -/
def ruleTypeError (fieldName : String) (rules : FieldRules) (value : JSValue) :
    Option String :=
  if rules.type == "text" || rules.type == "email" || rules.type == "tel" then
    match value with
    | .str _ => none
    | _ => some s!"{fieldName} must be a string"
  else if rules.type == "number" then
    if jsNumberIsNaN value then some s!"{fieldName} must be a valid number" else none
  else if rules.type == "checkbox" then
    match value with
    | .bool _ => none
    | .str s => if s == "true" || s == "false" then none
                else some s!"{fieldName} must be a boolean value"
    | _ => some s!"{fieldName} must be a boolean value"
  else if rules.type == "select" then
    match rules.options with
    | some opts =>
      let validValues := opts.map (fun o => o.value)
      if validValues.contains (jsToString value) then none
      else
        let joined := String.intercalate ", " validValues
        some s!"{fieldName} must be one of: {joined}"
    | none => none
  else none

/-- The schema-pattern check of `validateField`, with its field-specific
messages.  `rx p s = none` models `new RegExp(p)` throwing: the source catches
this, logs a warning, and skips the pattern check. -/
def rulePatternError (rx : String → String → Option Bool) (fieldName : String)
    (rules : FieldRules) (stringValue : String) : Option String :=
  match rules.pattern with
  | some p =>
    if stringValue != "" then
      match rx p stringValue with
      | some true => none
      | some false =>
        if jsIncludes (jsToLower fieldName) "pan" then
          some "PAN must be in format: ABCDE1234F (5 letters, 4 digits, 1 letter)"
        else if jsIncludes (jsToLower fieldName) "aadhaar"
            || jsIncludes (jsToLower fieldName) "adhar" then
          some "Aadhaar number must be 12 digits"
        else some s!"{fieldName} format is invalid"
      | none => none
    else none
  | none => none

/-- The try-body of `validateField(fieldName, value)`.  An `.error` is a JS
exception escaping the body; the reachable one is `getLoadedSchema` throwing
when no schema is loaded. -/
def validateFieldBody (rx : String → String → Option Bool) (loaded : Option UdyamSchema)
    (fieldName : String) (value : JSValue) : Except String (Option String) := do
  let schemaFieldName := getSchemaFieldName fieldName
  let fieldOpt ← getFieldByName loaded schemaFieldName
  match fieldOpt with
  | none => return validateBasicField fieldName value
  | some field => do
    let rules ← getFieldValidationRules loaded schemaFieldName
    if rules.required && isEmptyValue value then
      return some s!"{fieldName} is required"
    else if !rules.required && isEmptyValue value then
      return none
    else
      let stringValue := jsToString value
      match ruleTypeError fieldName rules value with
      | some e => return some e
      | none =>
      match rulePatternError rx fieldName rules stringValue with
      | some e => return some e
      | none =>
        let labelOrName := if field.label != "" then field.label else fieldName
        let maxErr : Option String :=
          match rules.maxlength with
          | some m =>
            if m != 0 && Int.ofNat stringValue.length > m then
              some s!"{labelOrName} must not exceed {m} characters"
            else none
          | none => none
        match maxErr with
        | some e => return some e
        | none =>
        let minErr : Option String :=
          match rules.minlength with
          | some m =>
            if m != 0 && Int.ofNat stringValue.length < m then
              some s!"{labelOrName} must be at least {m} characters"
            else none
          | none => none
        match minErr with
        | some e => return some e
        | none =>
          if jsIncludes (jsToLower fieldName) "email" && !matchesEmail stringValue then
            return some s!"{labelOrName} must be a valid email address"
          else if (jsIncludes (jsToLower fieldName) "mobile"
              || jsIncludes (jsToLower fieldName) "phone") && !matchesMobile stringValue then
            return some s!"{labelOrName} must be a valid 10-digit mobile number"
          else
            return none

/-- `validateField`: the body under its `try/catch`.  Any exception becomes
the generic per-field message. -/
def validateField (rx : String → String → Option Bool) (loaded : Option UdyamSchema)
    (fieldName : String) (value : JSValue) : Option String :=
  match validateFieldBody rx loaded fieldName value with
  | .ok r => r
  | .error _ => some s!"Validation failed for {fieldName}"

/-! ### Whole-submission validation -/

/-- `ValidationResult` with the error mapping as an ordered key/value list. -/
structure ValidationResult where
  success : Bool
  errors : List (String × String)
deriving DecidableEq

/-- JS object assignment `errors[k] = v`: overwrite in place or append. -/
def jsSetKey : List (String × String) → String → String → List (String × String)
  | [], k, v => [(k, v)]
  | (k0, v0) :: rest, k, v =>
    if k0 == k then (k0, v) :: rest else (k0, v0) :: jsSetKey rest k v

/-- The per-entry loop of `validateSubmission`:
`for (const [fieldName, value] of Object.entries(data))`. -/
def fieldErrorsPass (rx : String → String → Option Bool) (loaded : Option UdyamSchema) :
    JSFields → List (String × String) → List (String × String)
  | .nil, errs => errs
  | .cons k v rest, errs =>
    let errs' :=
      match validateField rx loaded k v with
      | some e => jsSetKey errs k e
      | none => errs
    fieldErrorsPass rx loaded rest errs'

/-- The fixed top-level required keys checked for presence. -/
def requiredTopFields : List String :=
  ["enterpriseName", "enterpriseType", "socialCategory", "gender", "declaration"]

/-- The required-nested-block pass shared by the `officialAddress` and
`promoterDetails` checks: a falsy block adds `missingMsg` under the block key;
otherwise each falsy inner key adds `key innerMsgTail` under `block.key`. -/
def requiredBlockPass (data : JSFields) (blockKey : String) (reqInner : List String)
    (innerMsgTail : String) (missingMsg : String)
    (errs : List (String × String)) : List (String × String) :=
  let blockVal := jsGet.jsGetF data blockKey
  if jsTruthy blockVal then
    reqInner.foldl
      (fun errs f =>
        if jsTruthy (jsGet blockVal f) then errs
        else jsSetKey errs (blockKey ++ "." ++ f) (f ++ " " ++ innerMsgTail))
      errs
  else jsSetKey errs blockKey missingMsg

/-- The try-body of `validateSubmission`. -/
def validateSubmissionTry (rx : String → String → Option Bool)
    (loaded : Option UdyamSchema) (data : JSFields) : ValidationResult :=
  let errs := fieldErrorsPass rx loaded data []
  let errs := requiredTopFields.foldl
    (fun errs f => if jsHasKey data f then errs else jsSetKey errs f (f ++ " is required"))
    errs
  let errs := requiredBlockPass data "officialAddress"
    ["state", "district", "pinCode", "mobileNumber", "emailId"]
    "is required in official address" "Official address is required" errs
  let errs := requiredBlockPass data "promoterDetails"
    ["name", "mobileNumber", "emailId"]
    "is required in promoter details" "Promoter details are required" errs
  { success := errs.isEmpty, errors := errs }

/-- The try-body wrapped as a JS computation.  Every operation it performs is
total in the model, so it is `.ok` by construction; the wrapper records where
an exception would surface. -/
def validateSubmissionBody (rx : String → String → Option Bool)
    (loaded : Option UdyamSchema) (data : JSFields) : Except String ValidationResult :=
  .ok (validateSubmissionTry rx loaded data)

/-- The result built by `validateSubmission`'s `catch` branch. -/
def validationCatchResult : ValidationResult :=
  { success := false, errors := [("_general", "Validation failed due to internal error")] }

/-- `validateSubmission(data)`. -/
def validateSubmission (rx : String → String → Option Bool)
    (loaded : Option UdyamSchema) (data : JSFields) : ValidationResult :=
  match validateSubmissionBody rx loaded data with
  | .ok r => r
  | .error _ => validationCatchResult

/-! ### Sanitization (sanitizeSubmissionData) -/

/-- String values are trimmed; everything else is passed through. -/
def sanitizeValue : JSValue → JSValue
  | .str s => .str (jsTrim s)
  | v => v

/-- JS object assignment for value fields. -/
def jsSetKeyV : JSFields → String → JSValue → JSFields
  | .nil, k, v => .cons k v .nil
  | .cons k0 v0 rest, k, v =>
    if k0 == k then .cons k0 v rest else .cons k0 v0 (jsSetKeyV rest k v)

/-- The skip test of `sanitizeSubmissionData`:
`key.startsWith('__') || key.includes('prototype')`. -/
def strippedKey (k : String) : Bool := jsStartsWith k "__" || jsIncludes k "prototype"

/-- The copying loop of `sanitizeSubmissionData`: keys starting with `__` or
containing `prototype` are skipped; string values are trimmed. -/
def sanitizePass : JSFields → JSFields → JSFields
  | .nil, acc => acc
  | .cons k v rest, acc =>
    let acc' :=
      if strippedKey k then acc
      else jsSetKeyV acc k (sanitizeValue v)
    sanitizePass rest acc'

/-- `sanitizeSubmissionData(data)`; `now` stands for
`new Date().toISOString()`. -/
def sanitizeSubmissionData (now : String) (data : JSFields) : JSFields :=
  let s := sanitizePass data .nil
  let s := jsSetKeyV s "_submittedAt" (.str now)
  jsSetKeyV s "_version" (.str "1.0")

/-! ### Schema loading (loadSchema) -/

/-- The observable outcome of `fs.existsSync` + `fs.readFileSync` +
`JSON.parse` on the schema file, which is the input `loadSchema` branches on:
the file is missing, the JSON is malformed, or a document was parsed whose
`steps` member is either absent/not-an-array (`none`) or an array. -/
inductive SchemaReadResult where
  | missing
  | malformed (msg : String)
  | parsed (url : String) (scraped_at : String) (steps : Option (List SchemaStep))
deriving DecidableEq

/-- `loadSchema(schemaPath)` acting on the module-level `loadedSchema`
reference: returns the thrown-or-returned result together with the new value
of `loadedSchema`. -/
def loadSchema (path : String) (prev : Option UdyamSchema) (input : SchemaReadResult) :
    Except String UdyamSchema × Option UdyamSchema :=
  match input with
  | .missing =>
    (.error s!"Failed to load schema: Schema file not found: {path}", prev)
  | .malformed msg =>
    (.error s!"Failed to load schema: {msg}", prev)
  | .parsed url scrapedAt stepsOpt =>
    match stepsOpt with
    | none =>
      (.error "Failed to load schema: Invalid schema: missing or invalid steps array", prev)
    | some steps =>
      let schema : UdyamSchema := { url := url, scraped_at := scrapedAt, steps := steps }
      (.ok schema, some schema)

/-! ### Frontend step/progress model (FormRenderer) -/

/-- Frontend field model (`FormField` in useFormSchema.ts); `options` is
omitted as `validateCurrentStep` never reads it. -/
structure FormField where
  id : String
  name : String
  backendName : String
  label : String
  type : String
  required : Bool
  maxLength : Option Int
  minLength : Option Int
  pattern : Option String
  visible : Bool
  enabled : Bool
  readonly : Bool
deriving DecidableEq

/-- Frontend step model. -/
structure FormStep where
  id : Int
  title : String
  fields : List FormField
deriving DecidableEq

/-- Frontend schema model. -/
structure FormSchema where
  title : String
  subtitle : String
  steps : List FormStep
deriving DecidableEq

/-- The FormRenderer component state touched by navigation. -/
structure RendererState where
  currentStep : Int
  formData : JSFields
  fieldErrors : List (String × String)
  completedSteps : List Int
deriving DecidableEq

/-- JS array indexing `l[i]`: `undefined` out of range. -/
def jsArrayGet {α : Type} (l : List α) (i : Int) : Option α :=
  if i < 0 then none else l.get? i.toNat

/-- Split a string at every occurrence of a character (JS `s.split('.')`). -/
def splitOnCh (sep : Char) (s : String) : List String :=
  (s.data.splitOn sep).map String.mk

/-- The `getFieldValue` helper of `validateCurrentStep`: dot-qualified names
read one level into `formData`; a falsy parent yields `''`. -/
def getFieldValueFR (formData : JSFields) (fieldName : String) : JSValue :=
  if jsIncludes fieldName "." then
    let parts := splitOnCh '.' fieldName
    let parentKey := (parts.get? 0).getD ""
    let childKey := (parts.get? 1).getD ""
    let parentVal := jsGet.jsGetF formData parentKey
    if jsTruthy parentVal then jsGet parentVal childKey else .str ""
  else jsGet.jsGetF formData fieldName

/-- The message selection of the frontend pattern check. -/
def stepPatternMsg (field : FormField) (p : String) : String :=
  if field.name == "aadhaarNumber" then "Aadhaar number must be 12 digits"
  else if field.name == "panNumber" then "PAN must be in format: ABCDE1234F"
  else if p == "^[0-9]{6}$" then "PIN Code must be 6 digits"
  else if p == "^[0-9]{10}$" then "Mobile number must be 10 digits"
  else if jsIncludes p "@" then "Please enter a valid email address"
  else field.label ++ " format is invalid"

/-- The `forEach` body of `validateCurrentStep` over the step's fields,
accumulating `errors` and `isValid`.  Here `new RegExp(field.pattern)` is NOT
wrapped in a `try`, so an invalid pattern (`rx … = none`) escapes as an
exception. -/
def validateStepFields (rx : String → String → Option Bool) (formData : JSFields) :
    List FormField → List (String × String) × Bool →
    Except String (List (String × String) × Bool)
  | [], acc => .ok acc
  | field :: rest, (errs, isValid) =>
    if field.type == "submit" || field.type == "button" then
      validateStepFields rx formData rest (errs, isValid)
    else
      let value := getFieldValueFR formData field.name
      let acc1 :=
        if field.required && (!jsTruthy value || value == .str "") then
          (jsSetKey errs field.name (field.label ++ " is required"), false)
        else (errs, isValid)
      let patStep : Except String (List (String × String) × Bool) :=
        match field.pattern with
        | some p =>
          if jsTruthy value && p != "" then
            match rx p (jsToString value) with
            | none => .error "SyntaxError: invalid regular expression"
            | some true => .ok acc1
            | some false => .ok (jsSetKey acc1.1 field.name (stepPatternMsg field p), false)
          else .ok acc1
        | none => .ok acc1
      match patStep with
      | .error e => .error e
      | .ok (errs2, isValid2) =>
        let acc3 :=
          match field.maxLength with
          | some m =>
            if jsTruthy value && m != 0
                && (match jsLength value with | some len => len > m | none => false) then
              let msg := field.label ++ " must not exceed " ++ toString m ++ " characters"
              (jsSetKey errs2 field.name msg, false)
            else (errs2, isValid2)
          | none => (errs2, isValid2)
        validateStepFields rx formData rest acc3

/-- `validateCurrentStep()`: validates only the active step's fields.  The
result is `(isValid, newFieldErrors?)`; `none` for the errors means the early
`return false` was taken before `setFieldErrors` ran. -/
def validateCurrentStep (rx : String → String → Option Bool)
    (schema : Option FormSchema) (st : RendererState) :
    Except String (Bool × Option (List (String × String))) :=
  let stepData :=
    match schema with
    | some s => jsArrayGet s.steps (st.currentStep - 1)
    | none => none
  match stepData with
  | none => .ok (false, none)
  | some stepData => do
    let (errs, isValid) ← validateStepFields rx st.formData stepData.fields ([], true)
    return (isValid, some errs)

/-- `handleNext()`: validate the active step; on success mark it completed and
advance, clamped at the step count.  An exception from `validateCurrentStep`
leaves the component state unchanged (`.error`). -/
def handleNext (rx : String → String → Option Bool) (schema : Option FormSchema)
    (st : RendererState) : Except String RendererState :=
  match validateCurrentStep rx schema st with
  | .error e => .error e
  | .ok (valid, errsOpt) =>
    let st1 :=
      match errsOpt with
      | some errs => { st with fieldErrors := errs }
      | none => st
    if valid then
      let st2 :=
        if st1.completedSteps.contains st1.currentStep then st1
        else { st1 with completedSteps := st1.completedSteps ++ [st1.currentStep] }
      let n : Int := match schema with | some s => Int.ofNat s.steps.length | none => 0
      if st2.currentStep < n then .ok { st2 with currentStep := st2.currentStep + 1 }
      else .ok st2
    else .ok st1

/-- `handlePrevious()`: decrement the ordinal, clamped at 1; no validation. -/
def handlePrevious (st : RendererState) : RendererState :=
  if st.currentStep > 1 then { st with currentStep := st.currentStep - 1 } else st

/-! ### Concrete fixtures used by the theorems below -/

/-- A regex oracle whose patterns always match (no schema pattern is under
test when it is used). -/
def rxTrue : String → String → Option Bool := fun _ _ => some true

/-- A scraped field with the given name and control type and no constraints. -/
def mkField (nm ty : String) : SchemaField :=
  { tag := "input", type := ty, name := nm, maxlength := "", minlength := "",
    required := false, pattern := "", aria_required := "", label := "", options := none }

/-- A loaded schema with no steps (so no field resolves). -/
def schemaEmpty : UdyamSchema := { url := "u", scraped_at := "t", steps := [] }

/-- A loaded schema whose `txtadharno` field carries no pattern and is not
required. -/
def schemaAadhaarPlain : UdyamSchema :=
  { url := "u", scraped_at := "t",
    steps := [{ id := 1, title := "s", fields := [mkField "txtadharno" "text"],
                field_count := 1 }] }

/-- A loaded schema whose `chkDecarationP` field is a required checkbox. -/
def schemaDeclCheckbox : UdyamSchema :=
  { url := "u", scraped_at := "t",
    steps := [{ id := 1, title := "s",
                fields := [{ mkField "chkDecarationP" "checkbox" with required := true }],
                field_count := 1 }] }

/-- A submission whose `officialAddress` block has an invalid `pinCode` and
otherwise truthy required inner keys. -/
def dataNestedPin : JSFields :=
  .cons "officialAddress"
    (.obj (.cons "state" (.str "MH")
      (.cons "district" (.str "Pune")
        (.cons "pinCode" (.str "123")
          (.cons "mobileNumber" (.str "9876543210")
            (.cons "emailId" (.str "a@b.c") .nil)))))) .nil

/-- The entries of a JS object as a Lean list. -/
def JSFields.entries : JSFields → List (String × JSValue)
  | .nil => []
  | .cons k v rest => (k, v) :: JSFields.entries rest

/-! ### Helper lemmas on the error mapping -/

/-- Reading the error mapping: the first entry with the given key. -/
def lookupKey : List (String × String) → String → Option String
  | [], _ => none
  | (k0, v0) :: rest, k => if k0 == k then some v0 else lookupKey rest k

theorem lookupKey_jsSetKey_self : ∀ (errs : List (String × String)) (k v : String),
    lookupKey (jsSetKey errs k v) k = some v
  | [], k, v => by simp [jsSetKey, lookupKey]
  | (k0, v0) :: rest, k, v => by
    by_cases h : k0 = k
    · subst h; simp [jsSetKey, lookupKey]
    · have hb : (k0 == k) = false := by simpa using h
      simp [jsSetKey, lookupKey, hb, lookupKey_jsSetKey_self rest k v]

theorem lookupKey_jsSetKey_ne : ∀ (errs : List (String × String)) (k k' v : String),
    k ≠ k' → lookupKey (jsSetKey errs k' v) k = lookupKey errs k
  | [], k, k', v, h => by
    have hb : (k' == k) = false := by simpa using (Ne.symm h)
    simp [jsSetKey, lookupKey, hb]
  | (k0, v0) :: rest, k, k', v, h => by
    by_cases h0 : k0 = k'
    · subst h0
      have hb : (k0 == k) = false := by simpa using fun he => h (he.symm)
      simp [jsSetKey, lookupKey, hb]
    · have hb0 : (k0 == k') = false := by simpa using h0
      by_cases hk : k0 = k
      · subst hk; simp [jsSetKey, lookupKey, hb0]
      · have hbk : (k0 == k) = false := by simpa using hk
        simp [jsSetKey, lookupKey, hb0, hbk, lookupKey_jsSetKey_ne rest k k' v h]

theorem lookupKey_jsSetKey_isSome (errs : List (String × String)) (k k' v : String)
    (h : (lookupKey errs k).isSome = true) :
    (lookupKey (jsSetKey errs k' v) k).isSome = true := by
  by_cases hk : k = k'
  · subst hk; rw [lookupKey_jsSetKey_self]; rfl
  · rw [lookupKey_jsSetKey_ne errs k k' v hk]; exact h

/-- The per-entry step of `fieldErrorsPass`. -/
def fieldStep (rx : String → String → Option Bool) (loaded : Option UdyamSchema)
    (errs : List (String × String)) (kv : String × JSValue) : List (String × String) :=
  match validateField rx loaded kv.1 kv.2 with
  | some e => jsSetKey errs kv.1 e
  | none => errs

theorem fieldErrorsPass_entries (rx : String → String → Option Bool)
    (loaded : Option UdyamSchema) :
    ∀ (fs : JSFields) (errs : List (String × String)),
    fieldErrorsPass rx loaded fs errs = fs.entries.foldl (fieldStep rx loaded) errs
  | .nil, errs => rfl
  | .cons k v rest, errs => by
    simp only [fieldErrorsPass, JSFields.entries, List.foldl, fieldStep]
    cases validateField rx loaded k v with
    | none => exact fieldErrorsPass_entries rx loaded rest errs
    | some e => exact fieldErrorsPass_entries rx loaded rest (jsSetKey errs k e)

theorem lookupKey_fieldStep_isSome (rx : String → String → Option Bool)
    (loaded : Option UdyamSchema) (errs : List (String × String))
    (kv : String × JSValue) (k : String) (h : (lookupKey errs k).isSome = true) :
    (lookupKey (fieldStep rx loaded errs kv) k).isSome = true := by
  unfold fieldStep
  cases validateField rx loaded kv.1 kv.2 with
  | none => exact h
  | some e => exact lookupKey_jsSetKey_isSome errs k kv.1 e h

theorem lookupKey_foldl_isSome {α : Type} (k : String) (l : List α)
    (step : List (String × String) → α → List (String × String))
    (hstep : ∀ errs a, (lookupKey errs k).isSome = true →
      (lookupKey (step errs a) k).isSome = true) :
    ∀ errs, (lookupKey errs k).isSome = true →
      (lookupKey (l.foldl step errs) k).isSome = true := by
  induction l with
  | nil => intro errs h; exact h
  | cons a rest ih => intro errs h; exact ih (step errs a) (hstep errs a h)

/-- If some entry of the record has key `k` and a value `validateField`
rejects, the per-field pass records an error under `k`. -/
theorem lookupKey_foldl_fieldStep_sets (rx : String → String → Option Bool)
    (loaded : Option UdyamSchema) (l : List (String × JSValue)) (k : String) (v : JSValue)
    (hmem : (k, v) ∈ l)
    (hval : (validateField rx loaded k v).isSome = true) :
    ∀ errs, (lookupKey (l.foldl (fieldStep rx loaded) errs) k).isSome = true := by
  induction l with
  | nil => simp at hmem
  | cons kv rest ih =>
    intro errs
    simp only [List.mem_cons] at hmem
    rcases hmem with heq | hmem
    · subst heq
      simp only [List.foldl]
      refine lookupKey_foldl_isSome k rest (fieldStep rx loaded)
        (fun e a h => lookupKey_fieldStep_isSome rx loaded e a k h) _ ?_
      cases hvf : validateField rx loaded k v with
      | none => rw [hvf] at hval; simp at hval
      | some e =>
        show (lookupKey (fieldStep rx loaded errs (k, v)) k).isSome = true
        unfold fieldStep
        rw [hvf]
        rw [lookupKey_jsSetKey_self]
        rfl
    · simp only [List.foldl]
      exact ih hmem (fieldStep rx loaded errs kv)

theorem lookupKey_fieldErrorsPass_sets (rx : String → String → Option Bool)
    (loaded : Option UdyamSchema) (fs : JSFields) (k : String) (v : JSValue)
    (hmem : (k, v) ∈ fs.entries)
    (hval : (validateField rx loaded k v).isSome = true) :
    ∀ errs, (lookupKey (fieldErrorsPass rx loaded fs errs) k).isSome = true := by
  intro errs
  rw [fieldErrorsPass_entries]
  exact lookupKey_foldl_fieldStep_sets rx loaded fs.entries k v hmem hval errs

theorem lookupKey_requiredBlockPass_isSome (data : JSFields) (blockKey : String)
    (reqInner : List String) (tailMsg missingMsg : String)
    (errs : List (String × String)) (k : String)
    (h : (lookupKey errs k).isSome = true) :
    (lookupKey (requiredBlockPass data blockKey reqInner tailMsg missingMsg errs) k).isSome
      = true := by
  unfold requiredBlockPass
  by_cases hb : jsTruthy (jsGet.jsGetF data blockKey) = true
  · rw [if_pos hb]
    refine lookupKey_foldl_isSome k reqInner _ ?_ errs h
    intro errs' f h'
    by_cases ht : jsTruthy (jsGet (jsGet.jsGetF data blockKey) f) = true
    · rwa [if_pos ht]
    · rw [if_neg ht]; exact lookupKey_jsSetKey_isSome errs' k _ _ h'
  · rw [if_neg hb]; exact lookupKey_jsSetKey_isSome errs k blockKey missingMsg h

theorem lookupKey_isEmpty_false (l : List (String × String)) (k : String)
    (h : (lookupKey l k).isSome = true) : l.isEmpty = false := by
  cases l with
  | nil => simp [lookupKey] at h
  | cons hd tl => rfl

/-- The error mapping of `validateSubmission` has key `k` whenever some entry
`(k, v)` of the record fails `validateField`. -/
theorem validateSubmission_sets_key (rx : String → String → Option Bool)
    (loaded : Option UdyamSchema) (data : JSFields) (k : String) (v : JSValue)
    (hmem : (k, v) ∈ data.entries)
    (hval : (validateField rx loaded k v).isSome = true) :
    (lookupKey (validateSubmission rx loaded data).errors k).isSome = true := by
  show (lookupKey (validateSubmissionTry rx loaded data).errors k).isSome = true
  unfold validateSubmissionTry
  apply lookupKey_requiredBlockPass_isSome
  apply lookupKey_requiredBlockPass_isSome
  refine lookupKey_foldl_isSome k requiredTopFields _ ?_ _ ?_
  · intro errs f h
    by_cases hd : jsHasKey data f = true
    · rwa [if_pos hd]
    · rw [if_neg hd]; exact lookupKey_jsSetKey_isSome errs k f _ h
  · exact lookupKey_fieldErrorsPass_sets rx loaded data k v hmem hval []

/-! ### Lemmas about `jsReplaceFirst` (name normalization) -/

theorem listStartsWith_append_self : ∀ (p r : List Char), listStartsWith p (p ++ r) = true
  | [], _ => rfl
  | c :: ps, r => by simp [listStartsWith, listStartsWith_append_self ps r]

theorem jsReplaceFirstAux_append_self (p repl r : List Char) (h : p ≠ []) :
    jsReplaceFirstAux p repl (p ++ r) = repl ++ r := by
  match p with
  | [] => exact absurd rfl h
  | c :: ps =>
    show jsReplaceFirstAux (c :: ps) repl (c :: (ps ++ r)) = repl ++ r
    unfold jsReplaceFirstAux
    rw [if_pos]
    · congr 1
      show (ps ++ r).drop ps.length = r
      exact List.drop_left ps r
    · exact listStartsWith_append_self (c :: ps) r

theorem jsReplaceFirstAux_of_not_contains :
    ∀ (l p repl : List Char), listContainsSeq p l = false → jsReplaceFirstAux p repl l = l
  | [], _, _, _ => rfl
  | c :: rest, p, repl, h => by
    simp only [listContainsSeq, Bool.or_eq_false_iff] at h
    obtain ⟨h1, h2⟩ := h
    unfold jsReplaceFirstAux
    rw [if_neg (by simp [h1])]
    rw [jsReplaceFirstAux_of_not_contains rest p repl h2]

/-! ### Claim theorems -/

/-- C4: for every input record (and every regex oracle and loaded-schema
state), the `ValidationResult` returned by `validateSubmission` has
`success = true` exactly when its error mapping is empty; the result its
catch branch would build also satisfies the invariant (`success = false`
with a non-empty mapping). -/
theorem c4_success_iff_errors_empty (rx : String → String → Option Bool)
    (loaded : Option UdyamSchema) (data : JSFields) :
    ((validateSubmission rx loaded data).success = true ↔
      (validateSubmission rx loaded data).errors = [])
    ∧ validationCatchResult.success = false ∧ validationCatchResult.errors ≠ [] := by
  refine ⟨?_, rfl, by decide⟩
  have h : (validateSubmission rx loaded data).success
      = (validateSubmission rx loaded data).errors.isEmpty := rfl
  rw [h]
  cases (validateSubmission rx loaded data).errors <;> simp

/-- C3 counterexample: a parsed document whose `steps` member is the EMPTY
array loads successfully (and becomes the active schema), refuting the claim
that `loadSchema` fails whenever the document lacks a non-empty Step
sequence. -/
theorem c3_empty_steps_counterexample :
    (loadSchema "p" none (.parsed "u" "t" (some []))).1
        = .ok { url := "u", scraped_at := "t", steps := [] }
      ∧ (loadSchema "p" none (.parsed "u" "t" (some []))).2
        = some { url := "u", scraped_at := "t", steps := [] }
      ∧ ({ url := "u", scraped_at := "t", steps := [] } : UdyamSchema).steps.length = 0 :=
  ⟨rfl, rfl, rfl⟩

/-- C3 (amended): `loadSchema` fails with a descriptive error when the file is
missing, the JSON is malformed, or the parsed document's `steps` member is
absent or not an array (an empty `steps` ARRAY is accepted); on any failure
the previously active document remains active, and on success the active
document is replaced by the newly parsed one (all-or-nothing). -/
theorem c3_load_all_or_nothing (path : String) (prev : Option UdyamSchema)
    (input : SchemaReadResult) :
    (∀ e, (loadSchema path prev input).1 = .error e → (loadSchema path prev input).2 = prev)
    ∧ (∀ s, (loadSchema path prev input).1 = .ok s → (loadSchema path prev input).2 = some s)
    ∧ (input = .missing → ∃ e, (loadSchema path prev input).1 = .error e)
    ∧ (∀ m, input = .malformed m → ∃ e, (loadSchema path prev input).1 = .error e)
    ∧ (∀ u t, input = .parsed u t none → ∃ e, (loadSchema path prev input).1 = .error e) := by
  rcases input with _ | m | ⟨u, t, steps⟩
  · exact ⟨fun e _ => rfl, fun s h => Except.noConfusion h, fun _ => ⟨_, rfl⟩,
      fun m h => SchemaReadResult.noConfusion h, fun u t h => SchemaReadResult.noConfusion h⟩
  · exact ⟨fun e _ => rfl, fun s h => Except.noConfusion h,
      fun h => SchemaReadResult.noConfusion h, fun _ _ => ⟨_, rfl⟩,
      fun u t h => SchemaReadResult.noConfusion h⟩
  · cases steps with
    | none =>
      refine ⟨fun e _ => rfl, fun s h => Except.noConfusion h,
        fun h => SchemaReadResult.noConfusion h,
        fun m h => SchemaReadResult.noConfusion h, fun u' t' h => ⟨_, rfl⟩⟩
    | some l =>
      refine ⟨fun e h => Except.noConfusion h, fun s h => ?_,
        fun h => SchemaReadResult.noConfusion h,
        fun m h => SchemaReadResult.noConfusion h, fun u' t' h => ?_⟩
      · cases h; rfl
      · injection h with h1 h2 h3
        exact Option.noConfusion h3

/-- C3 witness: the amended theorem applied to a malformed-JSON read over a
previously loaded schema: the load fails and the previous document stays. -/
theorem c3_load_all_or_nothing_witness :
    (loadSchema "p" (some schemaEmpty) (.malformed "Unexpected token")).2 = some schemaEmpty
    ∧ (∃ e, (loadSchema "p" (some schemaEmpty) (.malformed "Unexpected token")).1 = .error e) := by
  have h := c3_load_all_or_nothing "p" (some schemaEmpty) (.malformed "Unexpected token")
  obtain ⟨e, he⟩ := h.2.2.2.1 "Unexpected token" rfl
  exact ⟨h.1 e he, ⟨e, he⟩⟩

/-- C10: `validateSubmission` never takes its catch branch (every operation in
the try body is total, so the result always comes from the try body); an
exception escaping the body of `validateField` (reachable, e.g., when
`getLoadedSchema` throws because no schema is loaded) is caught and turned
into the generic per-field message; field validation continues past a failing
field (both "a" and "b" get generic errors below); and the aggregate catch
handler, were it reached, yields `success = false` with the single `_general`
entry. -/
theorem c10_no_throw (rx : String → String → Option Bool) (loaded : Option UdyamSchema)
    (data : JSFields) (fieldName : String) (value : JSValue) (e : String) :
    validateSubmission rx loaded data = validateSubmissionTry rx loaded data
    ∧ (validateFieldBody rx loaded fieldName value = .error e →
        validateField rx loaded fieldName value = some s!"Validation failed for {fieldName}")
    ∧ validateFieldBody rx none fieldName value
        = .error "Schema not loaded. Call loadSchema() first."
    ∧ lookupKey (validateSubmission rxTrue none
        (.cons "a" .undef (.cons "b" .undef .nil))).errors "a" = some "Validation failed for a"
    ∧ lookupKey (validateSubmission rxTrue none
        (.cons "a" .undef (.cons "b" .undef .nil))).errors "b" = some "Validation failed for b"
    ∧ validationCatchResult.success = false
    ∧ validationCatchResult.errors = [("_general", "Validation failed due to internal error")] := by
  refine ⟨rfl, ?_, rfl, by decide, by decide, rfl, rfl⟩
  intro h
  unfold validateField
  rw [h]

/-- C10 witness: the caught-exception branch at a concrete field: with no
schema loaded, validating field "a" yields the generic message. -/
theorem c10_no_throw_witness :
    validateField rxTrue none "a" .null = some "Validation failed for a" := by
  have h := c10_no_throw rxTrue none .nil "a" JSValue.null
    "Schema not loaded. Call loadSchema() first."
  exact h.2.1 h.2.2.1

/-- C6 counterexample: the normalization is NOT idempotent on every raw name:
on a doubly-prefixed name the first application removes only the first copy of
the marker and the second application removes the second. -/
theorem c6_idempotence_counterexample :
    cleanFieldName (cleanFieldName
        "ctl00$ContentPlaceHolder1$ctl00$ContentPlaceHolder1$txtadharno")
      ≠ cleanFieldName
        "ctl00$ContentPlaceHolder1$ctl00$ContentPlaceHolder1$txtadharno" := by decide

/-- C6 (amended): `cleanFieldName` (the same `replace` the lookup in
`getFieldByName` applies) removes the FIRST occurrence of the namespace marker
`ctl00$ContentPlaceHolder1$` anywhere in the name, not only a leading one.  On
names not containing the marker it is the identity (hence idempotent there);
it maps `marker ++ t` to `t`, and is idempotent on `marker ++ t` whenever the
remainder `t` contains no further occurrence of the marker. -/
theorem c6_clean_name_amended (s t : String) :
    (listContainsSeq aspMarker.data s.data = false → cleanFieldName s = s)
    ∧ cleanFieldName (aspMarker ++ t) = t
    ∧ (listContainsSeq aspMarker.data t.data = false →
        cleanFieldName (cleanFieldName (aspMarker ++ t)) = cleanFieldName (aspMarker ++ t))
    ∧ (∀ nm, jsReplaceFirst aspMarker "" nm = cleanFieldName nm) := by
  have hid : ∀ u : String, listContainsSeq aspMarker.data u.data = false →
      cleanFieldName u = u := by
    intro u hu
    show String.mk (jsReplaceFirstAux aspMarker.data "".data u.data) = u
    rw [jsReplaceFirstAux_of_not_contains u.data aspMarker.data "".data hu]
  have hstrip : cleanFieldName (aspMarker ++ t) = t := by
    show String.mk (jsReplaceFirstAux aspMarker.data "".data (aspMarker ++ t).data) = t
    rw [String.data_append]
    rw [jsReplaceFirstAux_append_self aspMarker.data "".data t.data (by decide)]
    rfl
  refine ⟨hid s, hstrip, ?_, fun nm => rfl⟩
  intro ht
  rw [hstrip, hid t ht]

/-- C6 witness: the amended statement at concrete names: `txtadharno` has no
marker occurrence and is fixed; the prefixed form strips to it once and is
then stable. -/
theorem c6_clean_name_witness :
    cleanFieldName "plainName" = "plainName"
    ∧ cleanFieldName ("ctl00$ContentPlaceHolder1$" ++ "txtadharno") = "txtadharno"
    ∧ cleanFieldName (cleanFieldName ("ctl00$ContentPlaceHolder1$" ++ "txtadharno"))
        = cleanFieldName ("ctl00$ContentPlaceHolder1$" ++ "txtadharno") := by
  have h := c6_clean_name_amended "plainName" "txtadharno"
  exact ⟨h.1 (by decide), h.2.1, h.2.2.1 (by decide)⟩

/-- When the mapped name resolves to no schema field, `validateField` is
exactly the basic fallback validation. -/
theorem validateBasicField_eq (fieldName : String) (v : JSValue) :
    validateBasicField fieldName v =
      if requiredFieldsBasic.contains fieldName && isEmptyValue v then
        some s!"{fieldName} is required"
      else
        match basicSwitchError fieldName v (jsToString v) with
        | some e => some e
        | none =>
          match v with
          | .obj fields =>
            let errs := nestedFieldErrors fieldName fields
            if errs.isEmpty then none else some (String.intercalate "; " errs)
          | _ => none := by
  cases v <;> rfl

theorem validateField_not_found (rx : String → String → Option Bool)
    (loaded : Option UdyamSchema) (fieldName : String) (value : JSValue)
    (hfield : getFieldByName loaded (getSchemaFieldName fieldName) = .ok none) :
    validateField rx loaded fieldName value = validateBasicField fieldName value := by
  unfold validateField validateFieldBody
  dsimp only
  rw [hfield]
  rfl

/-- In the fallback path, any value whose string form is not 12 digits makes
the identity-number check (or, for empty values, the required check) fire. -/
theorem validateBasicField_aadhaar_isSome (v : JSValue)
    (hpat : matchesAadhaar (jsToString v) = false) :
    (validateBasicField "aadhaarNumber" v).isSome = true := by
  have hsw : basicSwitchError "aadhaarNumber" v (jsToString v)
      = some "Aadhaar number must be exactly 12 digits" := by
    unfold basicSwitchError
    rw [if_neg (by decide), if_neg (by decide), if_neg (by decide), if_neg (by decide),
      if_pos (by decide)]
    rw [if_pos (by simp [hpat])]
  rw [validateBasicField_eq]
  by_cases hemp : isEmptyValue v = true
  · rw [if_pos (by rw [hemp]; decide)]
    rfl
  · rw [if_neg (by rw [Bool.of_not_eq_true hemp]; decide)]
    rw [hsw]
    rfl

/-- C1 counterexample: with a loaded schema that DOES carry a rule for the
identity-number field (`txtadharno`, no pattern, not required), the
non-12-digit value `"12345"` produces NO error under `aadhaarNumber`: the
12-digit check lives only in the schema-less fallback, so it does not apply
"regardless of whether a schema-derived rule exists". -/
theorem c1_schema_rule_counterexample :
    matchesAadhaar "12345" = false
    ∧ lookupKey (validateSubmission rxTrue (some schemaAadhaarPlain)
        (.cons "aadhaarNumber" (.str "12345") .nil)).errors "aadhaarNumber" = none := by decide

/-- C1 (amended): whenever NO schema field resolves for `txtadharno` (the
mapped name of `aadhaarNumber`), a submission entry `aadhaarNumber ↦ v` whose
string form is not exactly 12 digits gets an error under that key and makes
`success` false; in particular, against a schema with no matching field,
`"539146184333"` passes while `"12345"` and `"53914618433A"` fail with the
digit-count message. -/
theorem c1_aadhaar_fallback (rx : String → String → Option Bool)
    (loaded : Option UdyamSchema) (data : JSFields) (v : JSValue)
    (hfield : getFieldByName loaded "txtadharno" = .ok none)
    (hmem : ("aadhaarNumber", v) ∈ data.entries)
    (hpat : matchesAadhaar (jsToString v) = false) :
    (lookupKey (validateSubmission rx loaded data).errors "aadhaarNumber").isSome = true
    ∧ (validateSubmission rx loaded data).success = false
    ∧ validateField rx (some schemaEmpty) "aadhaarNumber" (.str "539146184333") = none
    ∧ validateField rx (some schemaEmpty) "aadhaarNumber" (.str "12345")
        = some "Aadhaar number must be exactly 12 digits"
    ∧ validateField rx (some schemaEmpty) "aadhaarNumber" (.str "53914618433A")
        = some "Aadhaar number must be exactly 12 digits" := by
  have hvf : (validateField rx loaded "aadhaarNumber" v).isSome = true := by
    rw [validateField_not_found rx loaded "aadhaarNumber" v hfield]
    exact validateBasicField_aadhaar_isSome v hpat
  have hkey := validateSubmission_sets_key rx loaded data "aadhaarNumber" v hmem hvf
  refine ⟨hkey, ?_, ?_, ?_, ?_⟩
  · have hs : (validateSubmission rx loaded data).success
        = (validateSubmission rx loaded data).errors.isEmpty := rfl
    rw [hs]
    exact lookupKey_isEmpty_false _ _ hkey
  · rw [validateField_not_found rx (some schemaEmpty) "aadhaarNumber" _ rfl]; decide
  · rw [validateField_not_found rx (some schemaEmpty) "aadhaarNumber" _ rfl]; decide
  · rw [validateField_not_found rx (some schemaEmpty) "aadhaarNumber" _ rfl]; decide

/-- C1 witness: the amended theorem at the concrete record
`{aadhaarNumber: "12345"}` against the empty schema. -/
theorem c1_aadhaar_fallback_witness :
    (lookupKey (validateSubmission rxTrue (some schemaEmpty)
        (.cons "aadhaarNumber" (.str "12345") .nil)).errors "aadhaarNumber").isSome = true
    ∧ (validateSubmission rxTrue (some schemaEmpty)
        (.cons "aadhaarNumber" (.str "12345") .nil)).success = false := by
  have h := c1_aadhaar_fallback rxTrue (some schemaEmpty)
    (.cons "aadhaarNumber" (.str "12345") .nil) (.str "12345")
    rfl (by decide) (by decide)
  exact ⟨h.1, h.2.1⟩

/-- C2 counterexample: when the declaration field resolves to a
checkbox-typed schema rule, the boolean value `false` produces NO error at
all (the checkbox type check accepts any boolean), refuting the claim that
`false` always produces an error. -/
theorem c2_checkbox_false_counterexample :
    lookupKey (validateSubmission rxTrue (some schemaDeclCheckbox)
        (.cons "declaration" (.bool false) .nil)).errors "declaration" = none := by decide

/-- C2 (amended): in the fallback path (no schema field resolves for
`chkDecarationP`): `true` passes; `false` fails with
"Declaration must be accepted (true)", distinct from the absence message
"declaration is required"; the string `"true"` is rejected with the same
declaration message.  When a checkbox-typed schema rule resolves, booleans
and the strings `"true"`/`"false"` are all accepted — including `false`. -/
theorem c2_declaration_behaviour (rx : String → String → Option Bool)
    (loaded : Option UdyamSchema)
    (hfield : getFieldByName loaded "chkDecarationP" = .ok none) :
    validateField rx loaded "declaration" (.bool true) = none
    ∧ validateField rx loaded "declaration" (.bool false)
        = some "Declaration must be accepted (true)"
    ∧ validateField rx loaded "declaration" (.str "true")
        = some "Declaration must be accepted (true)"
    ∧ lookupKey (validateSubmission rxTrue (some schemaEmpty) .nil).errors "declaration"
        = some "declaration is required"
    ∧ "Declaration must be accepted (true)" ≠ "declaration is required"
    ∧ validateField rxTrue (some schemaDeclCheckbox) "declaration" (.bool false) = none
    ∧ validateField rxTrue (some schemaDeclCheckbox) "declaration" (.str "true") = none
    ∧ validateField rxTrue (some schemaDeclCheckbox) "declaration" (.str "false") = none := by
  refine ⟨?_, ?_, ?_, by decide, by decide, by decide, by decide, by decide⟩
  · rw [validateField_not_found rx loaded "declaration" _ hfield]; decide
  · rw [validateField_not_found rx loaded "declaration" _ hfield]; decide
  · rw [validateField_not_found rx loaded "declaration" _ hfield]; decide

/-- C2 witness: the amended theorem against the empty schema (fallback
path). -/
theorem c2_declaration_witness :
    validateField rxTrue (some schemaEmpty) "declaration" (.bool true) = none
    ∧ validateField rxTrue (some schemaEmpty) "declaration" (.bool false)
        = some "Declaration must be accepted (true)" := by
  have h := c2_declaration_behaviour rxTrue (some schemaEmpty) rfl
  exact ⟨h.1, h.2.1⟩

/-- Each failing inner key of a nested object contributes its dot-qualified
`objectName.key: message` SEGMENT to the list joined under the parent key. -/
theorem mem_nestedFieldErrors (objectName key : String) (v : JSValue) (e : String) :
    ∀ (fs : JSFields), (key, v) ∈ fs.entries → validateBasicField key v = some e →
      (objectName ++ "." ++ key ++ ": " ++ e) ∈ nestedFieldErrors objectName fs
  | .nil, hmem, _ => by simp [JSFields.entries] at hmem
  | .cons k0 v0 rest, hmem, hval => by
    simp only [JSFields.entries, List.mem_cons] at hmem
    unfold nestedFieldErrors
    rcases hmem with heq | hmem
    · injection heq with h1 h2
      subst h1; subst h2
      rw [hval]
      exact List.mem_cons_self _ _
    · cases hv0 : validateBasicField k0 v0 with
      | some e0 =>
        exact List.mem_cons_of_mem _
          (mem_nestedFieldErrors objectName key v e rest hmem hval)
      | none => exact mem_nestedFieldErrors objectName key v e rest hmem hval

/-- C5 counterexample: for the record whose `officialAddress` block carries an
invalid `pinCode`, the inner-key error is NOT reported under the dot-qualified
key `officialAddress.pinCode`; it is reported under the parent key
`officialAddress` (as the text of a joined message). -/
theorem c5_dot_key_counterexample :
    lookupKey (validateSubmission rxTrue (some schemaEmpty) dataNestedPin).errors
        "officialAddress.pinCode" = none
    ∧ lookupKey (validateSubmission rxTrue (some schemaEmpty) dataNestedPin).errors
        "officialAddress"
      = some "officialAddress.pinCode: Pin code must be exactly 6 digits" := by decide

/-- C5 (amended): nested object values are validated by recursing the same
basic rule set over their inner keys, but each inner error is recorded as a
`parent.child: message` segment of ONE `'; '`-joined message stored under the
PARENT key; dot-qualified mapping keys arise only from the fixed
required-inner-key presence checks. -/
theorem c5_nested_parent_key (objectName : String) (fs : JSFields) (key : String)
    (v : JSValue) (e : String)
    (hmem : (key, v) ∈ fs.entries) (hval : validateBasicField key v = some e) :
    ((objectName ++ "." ++ key ++ ": " ++ e) ∈ nestedFieldErrors objectName fs
      ∧ validateNestedObject objectName fs
          = some (String.intercalate "; " (nestedFieldErrors objectName fs)))
    ∧ lookupKey (validateSubmission rxTrue (some schemaEmpty) dataNestedPin).errors
        "officialAddress"
      = some "officialAddress.pinCode: Pin code must be exactly 6 digits" := by
  have hm := mem_nestedFieldErrors objectName key v e fs hmem hval
  refine ⟨⟨hm, ?_⟩, by decide⟩
  unfold validateNestedObject
  cases hcase : nestedFieldErrors objectName fs with
  | nil => rw [hcase] at hm; simp at hm
  | cons a rest => rfl

/-- C5 witness: the amended theorem at the concrete `officialAddress` block
with `pinCode = "123"`. -/
theorem c5_nested_parent_key_witness :
    ("officialAddress" ++ "." ++ "pinCode" ++ ": " ++ "Pin code must be exactly 6 digits")
      ∈ nestedFieldErrors "officialAddress"
        (.cons "state" (.str "MH")
          (.cons "district" (.str "Pune")
            (.cons "pinCode" (.str "123")
              (.cons "mobileNumber" (.str "9876543210")
                (.cons "emailId" (.str "a@b.c") .nil))))) := by
  have h := c5_nested_parent_key "officialAddress"
    (.cons "state" (.str "MH")
      (.cons "district" (.str "Pune")
        (.cons "pinCode" (.str "123")
          (.cons "mobileNumber" (.str "9876543210")
            (.cons "emailId" (.str "a@b.c") .nil)))))
    "pinCode" (.str "123") "Pin code must be exactly 6 digits" (by decide) (by decide)
  exact h.1.1

/-! ### Lemmas for sanitization -/

theorem jsGetF_jsSetKeyV_self : ∀ (fs : JSFields) (k : String) (v : JSValue),
    jsGet.jsGetF (jsSetKeyV fs k v) k = v
  | .nil, k, v => by simp [jsSetKeyV, jsGet.jsGetF]
  | .cons k0 v0 rest, k, v => by
    by_cases h : k0 = k
    · subst h; simp [jsSetKeyV, jsGet.jsGetF]
    · have hb : (k0 == k) = false := by simpa using h
      simp [jsSetKeyV, jsGet.jsGetF, hb, jsGetF_jsSetKeyV_self rest k v]

theorem jsGetF_jsSetKeyV_ne : ∀ (fs : JSFields) (k k' : String) (v : JSValue),
    k ≠ k' → jsGet.jsGetF (jsSetKeyV fs k' v) k = jsGet.jsGetF fs k
  | .nil, k, k', v, h => by
    have hb : (k' == k) = false := by simpa using (Ne.symm h)
    simp [jsSetKeyV, jsGet.jsGetF, hb]
  | .cons k0 v0 rest, k, k', v, h => by
    by_cases h0 : k0 = k'
    · subst h0
      have hb : (k0 == k) = false := by simpa using fun he => h he.symm
      simp [jsSetKeyV, jsGet.jsGetF, hb]
    · have hb0 : (k0 == k') = false := by simpa using h0
      by_cases hk : k0 = k
      · subst hk; simp [jsSetKeyV, jsGet.jsGetF, hb0]
      · have hbk : (k0 == k) = false := by simpa using hk
        simp [jsSetKeyV, jsGet.jsGetF, hb0, hbk, jsGetF_jsSetKeyV_ne rest k k' v h]

theorem jsHasKey_jsSetKeyV_self : ∀ (fs : JSFields) (k : String) (v : JSValue),
    jsHasKey (jsSetKeyV fs k v) k = true
  | .nil, k, v => by simp [jsSetKeyV, jsHasKey]
  | .cons k0 v0 rest, k, v => by
    by_cases h : k0 = k
    · subst h; simp [jsSetKeyV, jsHasKey]
    · have hb : (k0 == k) = false := by simpa using h
      simp [jsSetKeyV, jsHasKey, hb, jsHasKey_jsSetKeyV_self rest k v]

theorem jsHasKey_jsSetKeyV_ne : ∀ (fs : JSFields) (k k' : String) (v : JSValue),
    k ≠ k' → jsHasKey (jsSetKeyV fs k' v) k = jsHasKey fs k
  | .nil, k, k', v, h => by
    have hb : (k' == k) = false := by simpa using (Ne.symm h)
    simp [jsSetKeyV, jsHasKey, hb]
  | .cons k0 v0 rest, k, k', v, h => by
    by_cases h0 : k0 = k'
    · subst h0
      have hb : (k0 == k) = false := by simpa using fun he => h he.symm
      simp [jsSetKeyV, jsHasKey, hb]
    · have hb0 : (k0 == k') = false := by simpa using h0
      simp [jsSetKeyV, jsHasKey, hb0, jsHasKey_jsSetKeyV_ne rest k k' v h]

theorem jsHasKey_jsSetKeyV_of (fs : JSFields) (k k' : String) (v : JSValue)
    (h : jsHasKey fs k = true) : jsHasKey (jsSetKeyV fs k' v) k = true := by
  by_cases hk : k = k'
  · subst hk; exact jsHasKey_jsSetKeyV_self fs k v
  · rw [jsHasKey_jsSetKeyV_ne fs k k' v hk]; exact h

theorem jsHasKey_sanitizePass_stripped (k : String) (hk : strippedKey k = true) :
    ∀ (fs acc : JSFields), jsHasKey acc k = false →
      jsHasKey (sanitizePass fs acc) k = false
  | .nil, acc, h => h
  | .cons k0 v0 rest, acc, h => by
    unfold sanitizePass
    dsimp only
    by_cases h0 : strippedKey k0 = true
    · rw [if_pos h0]
      exact jsHasKey_sanitizePass_stripped k hk rest acc h
    · rw [if_neg h0]
      refine jsHasKey_sanitizePass_stripped k hk rest _ ?_
      have hne : k ≠ k0 := by
        intro he; subst he; exact h0 hk
      rw [jsHasKey_jsSetKeyV_ne acc k k0 (sanitizeValue v0) hne]
      exact h

theorem jsHasKey_sanitizePass_pres (k : String) :
    ∀ (fs acc : JSFields), jsHasKey acc k = true →
      jsHasKey (sanitizePass fs acc) k = true
  | .nil, acc, h => h
  | .cons k0 v0 rest, acc, h => by
    unfold sanitizePass
    dsimp only
    by_cases h0 : strippedKey k0 = true
    · rw [if_pos h0]
      exact jsHasKey_sanitizePass_pres k rest acc h
    · rw [if_neg h0]
      exact jsHasKey_sanitizePass_pres k rest _
        (jsHasKey_jsSetKeyV_of acc k k0 (sanitizeValue v0) h)

theorem jsHasKey_sanitizePass_mem (k : String) (v : JSValue) (hk : strippedKey k = false) :
    ∀ (fs acc : JSFields), (k, v) ∈ fs.entries →
      jsHasKey (sanitizePass fs acc) k = true
  | .nil, acc, hmem => by simp [JSFields.entries] at hmem
  | .cons k0 v0 rest, acc, hmem => by
    simp only [JSFields.entries, List.mem_cons] at hmem
    unfold sanitizePass
    dsimp only
    rcases hmem with heq | hmem
    · injection heq with h1 h2
      subst h1; subst h2
      rw [if_neg (by rw [hk]; exact fun hc => Bool.noConfusion hc)]
      exact jsHasKey_sanitizePass_pres k rest _ (jsHasKey_jsSetKeyV_self acc k _)
    · by_cases h0 : strippedKey k0 = true
      · rw [if_pos h0]
        exact jsHasKey_sanitizePass_mem k v hk rest acc hmem
      · rw [if_neg h0]
        exact jsHasKey_sanitizePass_mem k v hk rest _ hmem

theorem entries_jsSetKeyV : ∀ (fs : JSFields) (k : String) (v : JSValue)
    (q : String × JSValue), q ∈ (jsSetKeyV fs k v).entries → q = (k, v) ∨ q ∈ fs.entries
  | .nil, k, v, q, hq => by
    simp [jsSetKeyV, JSFields.entries] at hq
    exact Or.inl hq
  | .cons k0 v0 rest, k, v, q, hq => by
    have hrw : jsSetKeyV (JSFields.cons k0 v0 rest) k v
        = if k0 == k then .cons k0 v rest else .cons k0 v0 (jsSetKeyV rest k v) := rfl
    by_cases h : k0 = k
    · subst h
      rw [if_pos (by simp)] at hrw
      rw [hrw] at hq
      simp only [JSFields.entries, List.mem_cons] at hq ⊢
      rcases hq with h1 | h2
      · exact Or.inl h1
      · exact Or.inr (Or.inr h2)
    · have hb : (k0 == k) = false := by simpa using h
      rw [hb] at hrw
      simp only [Bool.false_eq_true, if_false] at hrw
      rw [hrw] at hq
      simp only [JSFields.entries, List.mem_cons] at hq ⊢
      rcases hq with h1 | h2
      · exact Or.inr (Or.inl h1)
      · rcases entries_jsSetKeyV rest k v q h2 with h3 | h4
        · exact Or.inl h3
        · exact Or.inr (Or.inr h4)

theorem entries_sanitizePass : ∀ (fs acc : JSFields) (q : String × JSValue),
    q ∈ (sanitizePass fs acc).entries →
      q ∈ acc.entries ∨ ∃ v', (q.1, v') ∈ fs.entries ∧ q.2 = sanitizeValue v'
  | .nil, acc, q, hq => Or.inl hq
  | .cons k0 v0 rest, acc, q, hq => by
    unfold sanitizePass at hq
    dsimp only at hq
    by_cases h0 : strippedKey k0 = true
    · rw [if_pos h0] at hq
      rcases entries_sanitizePass rest acc q hq with h1 | ⟨v', hv1, hv2⟩
      · exact Or.inl h1
      · exact Or.inr ⟨v', by simp [JSFields.entries, List.mem_cons]; exact Or.inr hv1, hv2⟩
    · rw [if_neg h0] at hq
      rcases entries_sanitizePass rest _ q hq with h1 | ⟨v', hv1, hv2⟩
      · rcases entries_jsSetKeyV acc k0 (sanitizeValue v0) q h1 with h2 | h3
        · refine Or.inr ⟨v0, ?_, ?_⟩
          · rw [h2]; simp [JSFields.entries]
          · rw [h2]
        · exact Or.inl h3
      · exact Or.inr ⟨v', by simp [JSFields.entries, List.mem_cons]; exact Or.inr hv1, hv2⟩

/-- C7 counterexample: `sanitizeSubmissionData` does NOT strip keys absent
from the API-facing field mapping: `randomKey` has no `FIELD_MAPPING` entry
yet survives sanitization (with its string value trimmed).  Only keys starting
with `__` or containing `prototype` are stripped. -/
theorem c7_unmapped_key_counterexample :
    FIELD_MAPPING.lookup "randomKey" = none
    ∧ jsHasKey (sanitizeSubmissionData "T" (.cons "randomKey" (.str " x ") .nil))
        "randomKey" = true
    ∧ jsGet.jsGetF (sanitizeSubmissionData "T" (.cons "randomKey" (.str " x ") .nil))
        "randomKey" = .str "x" := by decide

/-- C7 (amended): `sanitizeSubmissionData` strips exactly the keys starting
with `__` or containing `prototype`; every other input key is kept (whether or
not it appears in the API-facing field mapping); every kept value is the
input value with string values trimmed; and the metadata fields
`_submittedAt` (the current timestamp) and `_version` (`"1.0"`) are stamped. -/
theorem c7_sanitize_behaviour (now : String) (data : JSFields) (k : String) (v : JSValue) :
    jsGet.jsGetF (sanitizeSubmissionData now data) "_version" = .str "1.0"
    ∧ jsGet.jsGetF (sanitizeSubmissionData now data) "_submittedAt" = .str now
    ∧ (strippedKey k = true → jsHasKey (sanitizeSubmissionData now data) k = false)
    ∧ ((k, v) ∈ data.entries → strippedKey k = false →
        jsHasKey (sanitizeSubmissionData now data) k = true)
    ∧ (∀ q, q ∈ (sanitizeSubmissionData now data).entries →
        q.1 = "_submittedAt" ∨ q.1 = "_version"
        ∨ ∃ v', (q.1, v') ∈ data.entries ∧ q.2 = sanitizeValue v') := by
  unfold sanitizeSubmissionData
  dsimp only
  refine ⟨?_, ?_, ?_, ?_, ?_⟩
  · exact jsGetF_jsSetKeyV_self _ _ _
  · rw [jsGetF_jsSetKeyV_ne _ _ _ _ (by decide)]
    exact jsGetF_jsSetKeyV_self _ _ _
  · intro hk
    have h1 : k ≠ "_version" := by
      intro he; rw [he] at hk; exact absurd hk (by decide)
    have h2 : k ≠ "_submittedAt" := by
      intro he; rw [he] at hk; exact absurd hk (by decide)
    rw [jsHasKey_jsSetKeyV_ne _ _ _ _ h1, jsHasKey_jsSetKeyV_ne _ _ _ _ h2]
    exact jsHasKey_sanitizePass_stripped k hk data .nil rfl
  · intro hmem hk
    exact jsHasKey_jsSetKeyV_of _ _ _ _
      (jsHasKey_jsSetKeyV_of _ _ _ _ (jsHasKey_sanitizePass_mem k v hk data .nil hmem))
  · intro q hq
    rcases entries_jsSetKeyV _ _ _ q hq with h1 | h2
    · exact Or.inr (Or.inl (by rw [h1]))
    · rcases entries_jsSetKeyV _ _ _ q h2 with h3 | h4
      · exact Or.inl (by rw [h3])
      · rcases entries_sanitizePass data .nil q h4 with h5 | h6
        · simp [JSFields.entries] at h5
        · exact Or.inr (Or.inr h6)

/-- C7 witness: the amended theorem at a concrete record with one stripped
key, one kept key, and the metadata stamps. -/
theorem c7_sanitize_behaviour_witness :
    jsGet.jsGetF (sanitizeSubmissionData "2025-01-01T00:00:00.000Z"
        (.cons "__proto" (.str "evil") (.cons "enterpriseName" (.str " Acme ") .nil)))
      "_version" = .str "1.0"
    ∧ jsHasKey (sanitizeSubmissionData "2025-01-01T00:00:00.000Z"
        (.cons "__proto" (.str "evil") (.cons "enterpriseName" (.str " Acme ") .nil)))
      "__proto" = false
    ∧ jsHasKey (sanitizeSubmissionData "2025-01-01T00:00:00.000Z"
        (.cons "__proto" (.str "evil") (.cons "enterpriseName" (.str " Acme ") .nil)))
      "enterpriseName" = true := by
  have h1 := c7_sanitize_behaviour "2025-01-01T00:00:00.000Z"
    (.cons "__proto" (.str "evil") (.cons "enterpriseName" (.str " Acme ") .nil))
    "__proto" (.str "evil")
  have h2 := c7_sanitize_behaviour "2025-01-01T00:00:00.000Z"
    (.cons "__proto" (.str "evil") (.cons "enterpriseName" (.str " Acme ") .nil))
    "enterpriseName" (.str " Acme ")
  exact ⟨h1.1, h1.2.2.1 (by decide), h2.2.2.2.1 (by decide) (by decide)⟩

/-- C8: for every field found in the loaded schema,
`getFieldValidationRules` derives the rules by `fieldRulesOf`: `required` is
the required flag OR `aria_required == "true"`; a pattern is present only when
the field's pattern string is non-empty (and is that string); max/min lengths
are present only when the source strings are non-empty after trimming and
`parseInt` succeeds on them, a non-numeric length attribute being silently
dropped rather than an error; and options are present only when the field has
a non-empty options list. -/
theorem c8_rule_extraction (loaded : Option UdyamSchema) (name : String) (field : SchemaField)
    (hfind : getFieldByName loaded name = .ok (some field)) :
    getFieldValidationRules loaded name = .ok (fieldRulesOf field)
    ∧ (fieldRulesOf field).required = (field.required || field.aria_required == "true")
    ∧ (∀ p, (fieldRulesOf field).pattern = some p → p = field.pattern ∧ field.pattern ≠ "")
    ∧ (∀ n, (fieldRulesOf field).maxlength = some n →
        jsTrim field.maxlength ≠ "" ∧ jsParseInt field.maxlength = some n)
    ∧ (jsParseInt field.maxlength = none → (fieldRulesOf field).maxlength = none)
    ∧ (∀ n, (fieldRulesOf field).minlength = some n →
        jsTrim field.minlength ≠ "" ∧ jsParseInt field.minlength = some n)
    ∧ (jsParseInt field.minlength = none → (fieldRulesOf field).minlength = none)
    ∧ (∀ l, (fieldRulesOf field).options = some l → field.options = some l ∧ l ≠ []) := by
  refine ⟨?_, rfl, ?_, ?_, ?_, ?_, ?_, ?_⟩
  · unfold getFieldValidationRules
    rw [hfind]
    rfl
  · intro p hp
    simp only [fieldRulesOf] at hp
    by_cases hc : (field.pattern != "" && jsTrim field.pattern != "") = true
    · rw [if_pos hc] at hp
      injection hp with hp
      simp only [Bool.and_eq_true, bne_iff_ne, ne_eq] at hc
      exact ⟨hp.symm, hc.1⟩
    · rw [if_neg hc] at hp
      exact Option.noConfusion hp
  · intro n hn
    simp only [fieldRulesOf] at hn
    by_cases hc : (field.maxlength != "" && jsTrim field.maxlength != "") = true
    · rw [if_pos hc] at hn
      simp only [Bool.and_eq_true, bne_iff_ne, ne_eq] at hc
      cases hpi : jsParseInt field.maxlength with
      | none => rw [hpi] at hn; exact Option.noConfusion hn
      | some m =>
        rw [hpi] at hn
        injection hn with hn
        subst hn
        exact ⟨hc.2, rfl⟩
    · rw [if_neg hc] at hn
      exact Option.noConfusion hn
  · intro hpi
    simp only [fieldRulesOf]
    by_cases hc : (field.maxlength != "" && jsTrim field.maxlength != "") = true
    · rw [if_pos hc, hpi]
    · rw [if_neg hc]
  · intro n hn
    simp only [fieldRulesOf] at hn
    by_cases hc : (field.minlength != "" && jsTrim field.minlength != "") = true
    · rw [if_pos hc] at hn
      simp only [Bool.and_eq_true, bne_iff_ne, ne_eq] at hc
      cases hpi : jsParseInt field.minlength with
      | none => rw [hpi] at hn; exact Option.noConfusion hn
      | some m =>
        rw [hpi] at hn
        injection hn with hn
        subst hn
        exact ⟨hc.2, rfl⟩
    · rw [if_neg hc] at hn
      exact Option.noConfusion hn
  · intro hpi
    simp only [fieldRulesOf]
    by_cases hc : (field.minlength != "" && jsTrim field.minlength != "") = true
    · rw [if_pos hc, hpi]
    · rw [if_neg hc]
  · intro l hl
    simp only [fieldRulesOf] at hl
    cases ho : field.options with
    | none =>
      rw [ho] at hl
      have hl' : (none : Option (List SchemaOption)) = some l := hl
      exact Option.noConfusion hl'
    | some opts =>
      rw [ho] at hl
      have hl' : (if opts.length > 0 then some opts else none) = some l := hl
      by_cases hlen : opts.length > 0
      · rw [if_pos hlen] at hl'
        injection hl' with hl'
        subst hl'
        exact ⟨rfl, List.length_pos.mp hlen⟩
      · rw [if_neg hlen] at hl'
        exact Option.noConfusion hl'

/-- C8 witness: the derivation at a concrete field with a non-numeric
maxlength attribute (silently ignored) and an aria-required marking. -/
theorem c8_rule_extraction_witness :
    getFieldValidationRules (some schemaAadhaarPlain) "txtadharno"
        = .ok (fieldRulesOf (mkField "txtadharno" "text"))
    ∧ (fieldRulesOf { mkField "txtadharno" "text" with
          maxlength := "abc", aria_required := "true" }).maxlength = none
    ∧ (fieldRulesOf { mkField "txtadharno" "text" with
          maxlength := "abc", aria_required := "true" }).required = true := by
  have h1 := c8_rule_extraction (some schemaAadhaarPlain) "txtadharno"
    (mkField "txtadharno" "text") rfl
  have h2 := c8_rule_extraction
    (some { url := "u", scraped_at := "t",
            steps := [{ id := 1, title := "s",
                        fields := [{ mkField "txtadharno" "text" with
                                     maxlength := "abc", aria_required := "true" }],
                        field_count := 1 }] })
    "txtadharno"
    { mkField "txtadharno" "text" with maxlength := "abc", aria_required := "true" }
    rfl
  exact ⟨h1.1, h2.2.2.2.2.1 (by decide), by decide⟩

/-- C9: with N = the schema's step count, `handleNext` never moves the
ordinal past N — on the last step it leaves `currentStep` at N whether or not
validation passes; and `handlePrevious` on step 1 is the identity, always
succeeds (it is total), and touches nothing but the ordinal (no re-validation:
`fieldErrors`, `formData` and `completedSteps` are untouched). -/
theorem c9_step_clamping (rx : String → String → Option Bool) (schema : Option FormSchema)
    (s : FormSchema) (st st' : RendererState) :
    (schema = some s → st.currentStep = Int.ofNat s.steps.length →
      handleNext rx schema st = .ok st' → st'.currentStep = Int.ofNat s.steps.length)
    ∧ (st.currentStep = 1 → handlePrevious st = st)
    ∧ (handlePrevious st).formData = st.formData
    ∧ (handlePrevious st).fieldErrors = st.fieldErrors
    ∧ (handlePrevious st).completedSteps = st.completedSteps := by
  refine ⟨?_, ?_, ?_, ?_, ?_⟩
  · intro hs hcur hok
    subst hs
    unfold handleNext at hok
    cases hv : validateCurrentStep rx (some s) st with
    | error e => rw [hv] at hok; exact Except.noConfusion hok
    | ok res =>
      obtain ⟨valid, errsOpt⟩ := res
      rw [hv] at hok
      cases valid with
      | false =>
        cases errsOpt with
        | none =>
          dsimp only at hok
          injection hok with hok
          rw [← hok]; exact hcur
        | some errs =>
          dsimp only at hok
          injection hok with hok
          rw [← hok]; exact hcur
      | true =>
        cases errsOpt with
        | none =>
          dsimp only at hok
          by_cases hcont : st.completedSteps.contains st.currentStep = true
          · rw [if_pos hcont] at hok
            rw [hcur] at hok
            rw [if_neg (lt_irrefl _)] at hok
            injection hok with hok
            rw [← hok]; exact hcur
          · rw [if_neg hcont] at hok
            have hc2 : ({ st with completedSteps := st.completedSteps ++ [st.currentStep] }
                : RendererState).currentStep = st.currentStep := rfl
            rw [hc2, hcur] at hok
            rw [if_neg (lt_irrefl _)] at hok
            injection hok with hok
            rw [← hok]
        | some errs =>
          dsimp only at hok
          have hc1 : ({ st with fieldErrors := errs } : RendererState).currentStep
              = st.currentStep := rfl
          by_cases hcont : ({ st with fieldErrors := errs }
              : RendererState).completedSteps.contains
                ({ st with fieldErrors := errs } : RendererState).currentStep = true
          · rw [if_pos hcont] at hok
            rw [hc1, hcur] at hok
            rw [if_neg (lt_irrefl _)] at hok
            injection hok with hok
            rw [← hok]
          · rw [if_neg hcont] at hok
            have hc2 : ({ { st with fieldErrors := errs } with completedSteps :=
                ({ st with fieldErrors := errs } : RendererState).completedSteps
                  ++ [({ st with fieldErrors := errs } : RendererState).currentStep] }
                : RendererState).currentStep = st.currentStep := rfl
            rw [hc2, hcur] at hok
            rw [if_neg (lt_irrefl _)] at hok
            injection hok with hok
            rw [← hok]
  · intro h1
    unfold handlePrevious
    rw [if_neg (by rw [h1]; exact lt_irrefl 1)]
  · unfold handlePrevious
    by_cases h : st.currentStep > 1
    · rw [if_pos h]
    · rw [if_neg h]
  · unfold handlePrevious
    by_cases h : st.currentStep > 1
    · rw [if_pos h]
    · rw [if_neg h]
  · unfold handlePrevious
    by_cases h : st.currentStep > 1
    · rw [if_pos h]
    · rw [if_neg h]

/-- C9 witness: a one-step schema with no fields, state on the (last) step 1:
`next()` validates, completes the step, and leaves the ordinal at 1;
`previous()` at step 1 is the identity. -/
theorem c9_step_clamping_witness :
    handleNext rxTrue
        (some { title := "f", subtitle := "g", steps := [{ id := 1, title := "s1", fields := [] }] })
        { currentStep := 1, formData := .nil, fieldErrors := [], completedSteps := [] }
      = .ok { currentStep := 1, formData := .nil, fieldErrors := [], completedSteps := [1] }
    ∧ ({ currentStep := 1, formData := .nil, fieldErrors := [],
          completedSteps := [1] } : RendererState).currentStep
        = Int.ofNat ([{ id := 1, title := "s1", fields := [] }] : List FormStep).length
    ∧ handlePrevious { currentStep := 1, formData := .nil, fieldErrors := [], completedSteps := [] }
      = { currentStep := 1, formData := .nil, fieldErrors := [], completedSteps := [] } := by
  have h := c9_step_clamping rxTrue
    (some { title := "f", subtitle := "g", steps := [{ id := 1, title := "s1", fields := [] }] })
    { title := "f", subtitle := "g", steps := [{ id := 1, title := "s1", fields := [] }] }
    { currentStep := 1, formData := .nil, fieldErrors := [], completedSteps := [] }
    { currentStep := 1, formData := .nil, fieldErrors := [], completedSteps := [1] }
  refine ⟨rfl, ?_, h.2.1 rfl⟩
  have h2 := h.1 rfl rfl rfl
  exact h2
